import Mathlib

/-!
Verification development for the fai-progress repository.

The Python source in src/fai_progress is embedded shallowly:

* Python floats are modelled as exact fractions (`Frac`, an `Int`
  numerator/denominator pair without normalisation, so that every
  arithmetic step reduces inside the kernel).  Decimal literals of the
  source such as 0.25 or 0.9 are taken as the exact fractions 1/4 and
  9/10.
* The parser classes of fai_progress/parser.py are embedded as the
  inductive `LogParser`; the regular expression of each concrete parser
  instance used by `FaiProgress.__init__` is transcribed into an
  executable matching function on the character list of a line (regex
  `.` is any character: input lines are rstripped and contain no
  newline).  Template substitution in displayed messages is abstracted:
  display events carry the template text, since no property below
  depends on rendered message contents.
* The mutable objects (`FaiProgress`, `FaiTask`, parser hit counters)
  become records threaded through explicit state-passing functions; the
  calls a run makes on the Display collaborator are collected in a
  `List DisplayEvent`.
-/

/-- Exact fraction used to model Python float arithmetic. The
representation is not normalised; all run-time denominators are
positive. -/
structure Frac where
  num : Int
  den : Int
deriving DecidableEq

instance : OfNat Frac n := ⟨⟨(n : Int), 1⟩⟩

instance : Add Frac := ⟨fun a b => ⟨a.num * b.den + b.num * a.den, a.den * b.den⟩⟩

instance : Sub Frac := ⟨fun a b => ⟨a.num * b.den - b.num * a.den, a.den * b.den⟩⟩

instance : Mul Frac := ⟨fun a b => ⟨a.num * b.num, a.den * b.den⟩⟩

/-- Division of fractions. Python raises ZeroDivisionError when the
divisor is zero; the embedding then produces a fraction with a zero
denominator, which no reachable run of the embedded program consumes. -/
instance : Div Frac := ⟨fun a b => ⟨a.num * b.den, a.den * b.num⟩⟩

/-- Strict order test, valid whenever both denominators are nonzero. -/
def Frac.blt (a b : Frac) : Bool :=
  (a.num * b.den - b.num * a.den) * (a.den * b.den) < 0

/-- Semantic equality test, valid whenever both denominators are nonzero. -/
def Frac.beq (a b : Frac) : Bool :=
  a.num * b.den == b.num * a.den

/-- Calls made on the Display collaborator (display/simple.py contract:
update, update_task, debug, cleanup). -/
inductive DisplayEvent
  | update (progress : Frac) (message : String)
  | updateTask (progress : Frac) (name : String) (description : String)
  | debug (message : String)
  | cleanup
deriving DecidableEq

/-- The callback a parser invokes on its FaiProgress object when its
regular expression matches a line (the `_on_match` overrides in
fai_progress/parser.py). `hangup` models `HangupParser`, which assigns
`call_back.active = False` directly. -/
inductive EngineEvent
  | updateMessage (message : String)
  | nextTask (name : String)
  | updatePackageCount (upgrades installs removes : Int)
  | handleError (message : String)
  | hangup
deriving DecidableEq

/-- The distinct regular expressions appearing in plain
`BasicLineParser` instances registered by `FaiProgress.__init__`. -/
inductive LinePattern
  | faiActionInstall
  | executingParted
  | executingMkswap
  | executingMkfs
  | unpackingBaseSystem
  | resolvingDependencies
  | checkingComponent
deriving DecidableEq

/-- Matching function for each `LinePattern`, transcribed from the regex
it names. `re.match` anchors at the start of the line only; a trailing
`$` forces equality since lines carry no newline. In the pattern of the
unpacking-base-system parser the final three dots are regex wildcards,
hence the extra length requirement. -/
def LinePattern.matchesChars : LinePattern → List Char → Bool
  | .faiActionInstall, l => l == ("FAI_ACTION: install").toList
  | .executingParted, l => ("Executing: parted").toList.isPrefixOf l
  | .executingMkswap, l => ("Executing: mkswap").toList.isPrefixOf l
  | .executingMkfs, l => ("Executing: mkfs").toList.isPrefixOf l
  | .unpackingBaseSystem, l =>
      ("I: Unpacking the base system").toList.isPrefixOf l
        && decide (("I: Unpacking the base system").toList.length + 3 ≤ l.length)
  | .resolvingDependencies, l => l == ("I: Resolving dependencies").toList
  | .checkingComponent, l => ("I: Checking component").toList.isPrefixOf l

/-- Whitespace characters of the regex class `\s` (ASCII range). -/
def pyWhitespace (c : Char) : Bool :=
  c == ' ' || c == '\t' || c == '\n' || c == '\r' || c == '\x0b' || c == '\x0c'

/-- Some space character occurs with at least one character before it in
the enclosing list (ensured by the caller) and at least one after it:
the shape of `.+ .+$` behind a fixed prefix. -/
def hasSpaceBeforeEnd : List Char → Bool
  | [] => false
  | [_] => false
  | c :: rest => c == ' ' || hasSpaceBeforeEnd rest

/-- Some space character occurs with at least three characters after it:
the shape of `.* ...` (three trailing regex wildcards). -/
def hasSpaceWith3After : List Char → Bool
  | [] => false
  | ' ' :: rest => decide (3 ≤ rest.length) || hasSpaceWith3After rest
  | _ :: rest => hasSpaceWith3After rest

/-- Consume `n` repetitions of `[^ ]+ ` (a nonempty run without spaces
followed by one literal space), returning the remainder. -/
def spaceTokens : Nat → List Char → Option (List Char)
  | 0, cs => some cs
  | n + 1, cs =>
    let tok := cs.takeWhile (fun c => c != ' ')
    match cs.dropWhile (fun c => c != ' ') with
    | ' ' :: rest => if tok.length == 0 then none else spaceTokens n rest
    | _ => none

/-- Numeric value of a run of decimal digits. -/
def digitsToInt (ds : List Char) : Int :=
  Int.ofNat (ds.foldl (fun a c => a * 10 + (c.toNat - 48)) 0)

/-- Tail of the `ShellParser` regex after `shell: `: a nonempty run
without slashes, a slash, then at least one further character that is
not a slash (`(?P<class>[^/]+)/(?P<script>[^/]+)`, unanchored at the
end). -/
def shellTail (r : List Char) : Bool :=
  let cls := r.takeWhile (fun c => c != '/')
  match r.dropWhile (fun c => c != '/') with
  | '/' :: c :: _ => cls.length != 0 && c != '/'
  | _ => false

/-- After the literal `Executing`: at least one space, the literal
`shell: `, then the class/script tail. Greedy ` +` is deterministic
here because the following literal starts with a non-space. -/
def shellAfterExecuting : List Char → Bool
  | ' ' :: r2 =>
    let r3 := r2.dropWhile (fun c => c == ' ')
    if ("shell: ").toList.isPrefixOf r3 then
      shellTail (r3.drop (("shell: ").toList.length))
    else false
  | _ => false

/-- Matching function of the `ShellParser` regex
`^Executing +shell: (?P<class>[^/]+)/(?P<script>[^/]+)`. -/
def shellMatches (l : List Char) : Bool :=
  if ("Executing").toList.isPrefixOf l then
    shellAfterExecuting (l.drop (("Executing").toList.length))
  else false

/-- Step of `InstallSummaryParser` after the third captured digit run:
the literal ` to remove` must follow (the regex is unanchored at the
end). -/
def installSummaryAfterInstalls (d1 d2 : List Char) (r3 : List Char) :
    Option (Int × Int × Int) :=
  if (" newly installed, ").toList.isPrefixOf r3 then
    let r4 := r3.drop ((" newly installed, ").toList.length)
    let d3 := r4.takeWhile Char.isDigit
    if d3.length == 0 then none
    else if (" to remove").toList.isPrefixOf (r4.dropWhile Char.isDigit) then
      some (digitsToInt d1, digitsToInt d2, digitsToInt d3)
    else none
  else none

/-- Step of `InstallSummaryParser` after the first captured digit run:
the optional greedy group `(?: packages)?` then ` upgraded, ` then the
second digit run. -/
def installSummaryAfterUpgrades (d1 : List Char) (r1 : List Char) :
    Option (Int × Int × Int) :=
  let r2opt : Option (List Char) :=
    if (" packages upgraded, ").toList.isPrefixOf r1 then
      some (r1.drop ((" packages upgraded, ").toList.length))
    else if (" upgraded, ").toList.isPrefixOf r1 then
      some (r1.drop ((" upgraded, ").toList.length))
    else none
  match r2opt with
  | none => none
  | some r2 =>
    let d2 := r2.takeWhile Char.isDigit
    if d2.length == 0 then none
    else installSummaryAfterInstalls d1 d2 (r2.dropWhile Char.isDigit)

/-- Matching and capture extraction for the `InstallSummaryParser` regex
`(?P<upgrades>[0-9]+)(?: packages)? upgraded, (?P<installs>[0-9]+) newly
installed, (?P<removes>[0-9]+) to remove` (anchored at the start by
`re.match`). -/
def parseInstallSummary (l : List Char) : Option (Int × Int × Int) :=
  let d1 := l.takeWhile Char.isDigit
  if d1.length == 0 then none
  else installSummaryAfterUpgrades d1 (l.dropWhile Char.isDigit)

/-- After `Get:` and the optional whitespace: a digit run, a space, six
repetitions of `[^ ]+ `, then at least one further character without a
space (`PackageReceiveParser`). -/
def packageReceiveNumber (r : List Char) : Bool :=
  let ds := r.takeWhile Char.isDigit
  if ds.length == 0 then false
  else
    match r.dropWhile Char.isDigit with
    | ' ' :: rest =>
      match spaceTokens 6 rest with
      | some r2 => (r2.takeWhile (fun c => c != ' ')).length != 0
      | none => false
    | _ => false

/-- Matching function of the `PackageReceiveParser` regex
`^Get:\s?(?P<number>[0-9]+) [^ ]+ [^ ]+ [^ ]+ (?P<package>[^ ]+) [^ ]+
(?P<version>[^ ]+) [^ ]+`. The optional `\s?` is deterministic because
a whitespace character can never start the digit run. -/
def packageReceiveMatches (l : List Char) : Bool :=
  if ("Get:").toList.isPrefixOf l then
    packageReceiveNumber
      (match l.drop (("Get:").toList.length) with
        | c :: t => if pyWhitespace c then t else c :: t
        | [] => [])
  else false

/-- After `ACTION `: a nonempty run without spaces, one literal space,
then somewhere a space with at least three characters after it
(`PackageInstallParser` regex `^ACTION (?P<package>[^ ]+) .* ...`). -/
def packageInstallAfter (r : List Char) : Bool :=
  let pkg := r.takeWhile (fun c => c != ' ')
  match r.dropWhile (fun c => c != ' ') with
  | ' ' :: rest => pkg.length != 0 && hasSpaceWith3After rest
  | _ => false

/-- Matching function of the `PackageInstallParser` regex for a given
action word. -/
def packageInstallMatches (act : String) (l : List Char) : Bool :=
  if (act ++ " ").toList.isPrefixOf l then
    packageInstallAfter (l.drop ((act ++ " ").toList.length))
  else false

/-- The parser classes of fai_progress/parser.py, restricted to the
instances `FaiProgress.__init__` registers. `FaiActionParser` is defined
in parser.py but never instantiated there, so it is not modelled. -/
inductive LogParser
  | ldap2faiError
  | hangup
  | faiTask (name : String) (description : String)
  | basic (message : String) (pattern : LinePattern)
  | shell (template : String)
  | bootstrapPackageVersion (action : String)
  | bootstrapPackage (action : String)
  | installSummary
  | packageReceive
  | packageInstall (action : String)
deriving DecidableEq

/-- Matching plus callback selection for one parser: `BasicLineParser.process`
attempts the compiled pattern with `re.match` and, on success, invokes
`_on_match`. The returned event is the callback the parser performs on
the engine. The message carried by an error event abstracts the base64
decoding of `LDAP2FaiErrorParser._on_match` (claims below never inspect
message text). -/
def LogParser.tryMatch : LogParser → List Char → Option EngineEvent
  | .ldap2faiError, l =>
    if ("ldap2fai-error:").toList.isPrefixOf l then
      some (EngineEvent.handleError (String.mk l))
    else none
  | .hangup, l =>
    if l == ("fai-progress: hangup").toList then some EngineEvent.hangup else none
  | .faiTask name _, l =>
    if ("Skiping task_" ++ name).toList.isPrefixOf l
        || ("Calling task_" ++ name).toList.isPrefixOf l
        || ("Calling hook: " ++ name).toList.isPrefixOf l
        || ("Source hook: " ++ name).toList.isPrefixOf l then
      some (EngineEvent.nextTask name)
    else none
  | .basic message pattern, l =>
    if pattern.matchesChars l then some (EngineEvent.updateMessage message) else none
  | .shell template, l =>
    if shellMatches l then some (EngineEvent.updateMessage template) else none
  | .bootstrapPackageVersion act, l =>
    if ("I: " ++ act ++ " ").toList.isPrefixOf l
        && (match l.drop (("I: " ++ act ++ " ").toList.length) with
            | _ :: t => hasSpaceBeforeEnd t
            | [] => false) then
      some (EngineEvent.updateMessage (act ++ " {package} {version}"))
    else none
  | .bootstrapPackage act, l =>
    if ("I: " ++ act ++ " ").toList.isPrefixOf l
        && decide (("I: " ++ act ++ " ").toList.length + 4 ≤ l.length) then
      some (EngineEvent.updateMessage (act ++ " {package}"))
    else none
  | .installSummary, l =>
    match parseInstallSummary l with
    | some (u, i, r) => some (EngineEvent.updatePackageCount u i r)
    | none => none
  | .packageReceive, l =>
    if packageReceiveMatches l then
      some (EngineEvent.updateMessage ("Retrieving {package} {version} ..."))
    else none
  | .packageInstall act, l =>
    if packageInstallMatches act l then
      some (EngineEvent.updateMessage (act ++ " {package} ..."))
    else none

/-- A constructed parser object: its class/pattern together with the
mutable hit counter `self.hits` (incremented by `process` on a match). -/
structure ParserInst where
  kind : LogParser
  hits : Nat
deriving DecidableEq

/-- A freshly constructed parser has zero hits. -/
def mkParser (kind : LogParser) : ParserInst := ⟨kind, 0⟩

/-- The `FaiTask` object of fai_progress/progress.py (field names keep
the source names, without the Python underscore prefix). -/
structure FaiTask where
  description : String
  target_progress : Frac
  progress_softupdate : Frac
  parsers : List ParserInst
  recurring_step_count : Int
  expected_recurring_steps : Int
  expected_non_recurring_steps : Int
  expected_steps : Int
deriving DecidableEq

/-- Constructor `FaiTask.__init__`: the softupdate target is
`progress_softupdate or target_progress` in Python, so a missing or
falsy (zero) softupdate value is replaced by the install target. -/
def mkFaiTask (description : String) (target_progress : Frac)
    (progress_softupdate : Option Frac) (expected_recurring_steps : Int) : FaiTask :=
  { description := description
    target_progress := target_progress
    progress_softupdate :=
      match progress_softupdate with
      | none => target_progress
      | some v => if Frac.beq v 0 then target_progress else v
    parsers := []
    recurring_step_count := 0
    expected_recurring_steps := expected_recurring_steps
    expected_non_recurring_steps := 1
    expected_steps := 1 }

/-- Method `FaiTask._update_expected_steps`. -/
def FaiTask.update_expected_steps (t : FaiTask) : FaiTask :=
  { t with expected_steps :=
      t.recurring_step_count * t.expected_recurring_steps
        + t.expected_non_recurring_steps }

/-- Method `FaiTask.add_parser`. -/
def FaiTask.addParser (t : FaiTask) (p : ParserInst)
    (recurring_step : Bool) (expected_hits : Int) : FaiTask :=
  let t1 := { t with parsers := t.parsers ++ [p] }
  let t2 :=
    if recurring_step then
      { t1 with recurring_step_count := t1.recurring_step_count + 1 }
    else
      { t1 with expected_non_recurring_steps :=
          t1.expected_non_recurring_steps + expected_hits }
  t2.update_expected_steps

/-- Method `FaiTask.update_recurrent_steps`. -/
def FaiTask.update_recurrent_steps (t : FaiTask) (count : Int) : FaiTask :=
  ({ t with expected_recurring_steps := count }).update_expected_steps

/-- Python truthiness of an optional string (None and the empty string
are falsy). -/
def pyTruthyStr : Option String → Bool
  | none => false
  | some s => decide (s ≠ "")

/-- Method `FaiTask.get_target_progress`. -/
def FaiTask.get_target_progress (t : FaiTask) (action : Option String) : Frac :=
  if pyTruthyStr action && (action == some ("softupdate")) then t.progress_softupdate
  else t.target_progress

/-- The mutable attributes of the `FaiProgress` engine object. The
current task is `none` while the synthetic initialisation task (stored
in `init_task`, never registered in `tasks`) is current, and `some name`
after `next_task` switched to the task registered under `name` — the
`is` identity test of `next_task` reduces to this name comparison
because every `add_task` call stores a distinct fresh object under a
distinct key. The task dictionary is an insertion-ordered association
list, as in Python. -/
structure FaiProgressState where
  current_progress : Frac
  current_progress_base : Frac
  current_progress_ceiling : Frac
  current_progress_slowdown_barrier : Frac
  action : Option String
  active : Bool
  debug_mode : Bool
  init_task : FaiTask
  current_task : Option String
  tasks : List (String × FaiTask)
  global_parsers : List ParserInst
deriving DecidableEq

/-- The task object currently receiving matches: `self.current_task`.
The `getD` default is unreachable because `next_task` only installs
names it has just looked up successfully. -/
def FaiProgressState.currentTaskData (s : FaiProgressState) : FaiTask :=
  match s.current_task with
  | none => s.init_task
  | some n => (s.tasks.lookup n).getD s.init_task

/-- Replace the task object the engine currently points at (models a
mutation of the shared `FaiTask` object through the
`self.current_task` reference). -/
def FaiProgressState.setCurrentTaskData (s : FaiProgressState) (t : FaiTask) :
    FaiProgressState :=
  match s.current_task with
  | none => { s with init_task := t }
  | some n =>
    { s with tasks := s.tasks.map (fun p => if p.1 == n then (p.1, t) else p) }

/-- Method `FaiProgress.progress_step_length`. Python raises
ZeroDivisionError when `expected_steps` is zero; that state is
unreachable from the shipped configuration (the non-recurring term of
every task is at least one and only the instsoft task, whose
`expected_steps` is `1 + 3·count`, is ever re-estimated). -/
def FaiProgressState.progress_step_length (s : FaiProgressState) : Frac :=
  (s.current_progress_ceiling - s.current_progress_base)
    / ⟨s.currentTaskData.expected_steps, 1⟩

/-- Method `FaiProgress.update_message`: advance the accumulated
progress by one step length, damped by the panic factor once the
slowdown barrier is passed, then notify the Display (the Signal Sink,
notified with the same value, is modelled separately). -/
def FaiProgressState.update_message (s : FaiProgressState) (message : String) :
    FaiProgressState × List DisplayEvent :=
  let s1 :=
    if Frac.blt s.current_progress s.current_progress_slowdown_barrier
        || s.debug_mode then
      { s with current_progress := s.current_progress + s.progress_step_length }
    else
      let range := s.current_progress_ceiling - s.current_progress_slowdown_barrier
      if Frac.beq range 0 then s
      else
        let subprogress :=
          (s.current_progress - s.current_progress_slowdown_barrier) / range
        let panic_factor := subprogress / (subprogress + 1)
        { s with current_progress :=
            s.current_progress + s.progress_step_length * panic_factor }
  (s1, [DisplayEvent.update s1.current_progress message])

/-- Method `FaiProgress.next_task`. A lookup failure corresponds to a
Python KeyError; it cannot happen because a `FaiTaskParser` is only
registered together with its task. -/
def FaiProgressState.next_task (s : FaiProgressState) (name : String) :
    FaiProgressState × List DisplayEvent :=
  match s.tasks.lookup name with
  | none => (s, [])
  | some t =>
    if s.current_task == some name then (s, [])
    else
      let p := s.current_progress_ceiling
      let ceiling := t.get_target_progress s.action
      ({ s with
          current_progress := p
          current_task := some name
          current_progress_base := p
          current_progress_ceiling := ceiling
          current_progress_slowdown_barrier := p + (ceiling - p) * ⟨9, 10⟩ },
        [DisplayEvent.updateTask p name t.description])

/-- Method `FaiProgress.update_package_count` composed with
`FaiTask.update_recurrent_steps` on the current task. -/
def FaiProgressState.update_package_count (s : FaiProgressState)
    (upgrades installs removes : Int) : FaiProgressState :=
  s.setCurrentTaskData
    (s.currentTaskData.update_recurrent_steps (upgrades + installs - removes))

/-- Method `FaiProgress.handle_error`: debug output, stop the dispatch
loop, Display cleanup. -/
def FaiProgressState.handle_error (s : FaiProgressState) (message : String) :
    FaiProgressState × List DisplayEvent :=
  ({ s with active := false }, [DisplayEvent.debug message, DisplayEvent.cleanup])

/-- Perform the engine callback selected by a matched parser. -/
def FaiProgressState.applyEvent (s : FaiProgressState) :
    EngineEvent → FaiProgressState × List DisplayEvent
  | EngineEvent.updateMessage message => s.update_message message
  | EngineEvent.nextTask name => s.next_task name
  | EngineEvent.updatePackageCount u i r => (s.update_package_count u i r, [])
  | EngineEvent.handleError message => s.handle_error message
  | EngineEvent.hangup => ({ s with active := false }, [])

/-- Walk a parser list in order, as the loop of
`FaiProgress.process_input` does: the first parser whose pattern matches
has its hit counter incremented and the loop stops (`if parser.match:
return`). Returns the updated list and the selected callback. -/
def dispatchParsers (l : List Char) : List ParserInst →
    Option (List ParserInst × EngineEvent)
  | [] => none
  | p :: ps =>
    match p.kind.tryMatch l with
    | some e => some ({ p with hits := p.hits + 1 } :: ps, e)
    | none =>
      match dispatchParsers l ps with
      | none => none
      | some (ps2, e) => some (p :: ps2, e)

/-- Method `FaiProgress.process_input`: the line is offered to the debug
channel, then to `self.global_parsers + self.current_task.parsers` in
order; the first match wins and its callback runs. -/
def FaiProgressState.process_input (s : FaiProgressState) (line : String) :
    FaiProgressState × List DisplayEvent :=
  let dbg := if s.debug_mode then [DisplayEvent.debug line] else []
  let l := line.toList
  match dispatchParsers l s.global_parsers with
  | some (gps, e) =>
    let r := ({ s with global_parsers := gps }).applyEvent e
    (r.1, dbg ++ r.2)
  | none =>
    match dispatchParsers l s.currentTaskData.parsers with
    | some (tps, e) =>
      let r := (s.setCurrentTaskData { s.currentTaskData with parsers := tps }).applyEvent e
      (r.1, dbg ++ r.2)
    | none => (s, dbg)

/-- The `for line in self.lines(): self.process_input(line)` loop of
`FaiProgress.run`. The generator `lines()` re-checks `self.active`
before every read, so a line is dispatched only while the engine is
active; once `active` is false the remaining input is never consumed.
A finite input list models the lines the tailed log ever provides. -/
def FaiProgressState.dispatchLines (s : FaiProgressState) :
    List String → FaiProgressState × List DisplayEvent
  | [] => (s, [])
  | line :: rest =>
    if s.active then
      let r1 := s.process_input line
      let r2 := r1.1.dispatchLines rest
      (r2.1, r1.2 ++ r2.2)
    else (s, [])

/-- Method `FaiProgress.add_task`: registers the task object under its
identifier and appends the matching `FaiTaskParser` to the global
parser list. -/
def FaiProgressState.add_task (s : FaiProgressState) (task description : String)
    (progress : Frac) (progress_softupdate : Option Frac) (recurring : Int) :
    FaiProgressState :=
  { s with
      tasks := s.tasks ++ [(task, mkFaiTask description progress progress_softupdate recurring)]
      global_parsers := s.global_parsers ++ [mkParser (LogParser.faiTask task description)] }

/-- Method `FaiProgress.add_parser` (renamed: attach a parser to a
registered task). -/
def FaiProgressState.attachParser (s : FaiProgressState) (task : String)
    (kind : LogParser) (recurring : Bool) (expected_hits : Int) : FaiProgressState :=
  { s with tasks := s.tasks.map (fun p =>
      if p.1 == task then (p.1, p.2.addParser (mkParser kind) recurring expected_hits)
      else p) }

/-- Constructor `FaiProgress.__init__` with the shipped task and parser
configuration, transcribed call by call. The initial `update_message`
already notifies the Display once, so the constructor returns the first
display event alongside the state. -/
def mkFaiProgress (debug : Bool) : FaiProgressState × List DisplayEvent :=
  let s0 : FaiProgressState :=
    { current_progress := 0
      current_progress_base := 0
      current_progress_ceiling := 0
      current_progress_slowdown_barrier := 0
      action := none
      active := true
      debug_mode := debug
      init_task := mkFaiTask ("Initializing FAI") 1 (some 0) 0
      current_task := none
      tasks := []
      global_parsers := [mkParser LogParser.ldap2faiError, mkParser LogParser.hangup] }
  let r0 := s0.update_message (s0.init_task.description)
  let s := r0.1
    |>.add_task ("confdir") ("Retrieving initial client configuration") ⟨1, 4⟩ none 0
    |>.add_task ("setup") ("Gathering client information") ⟨1, 2⟩ none 0
    |>.add_task ("defclass") ("Defining installation classes") ⟨3, 4⟩ none 0
    |>.add_task ("defvar") ("Defining installation variables") 1 none 0
    |>.add_task ("action") ("Evaluating action") ⟨5, 4⟩ none 0
    |>.add_task ("install") ("Starting installation") ⟨3, 2⟩ none 0
    |>.add_task ("partition") ("Inspecting harddisks") ⟨9, 2⟩ none 0
    |>.add_task ("mountdisks") ("Mounting filesystems") 5 none 0
    |>.add_task ("extrbase") ("Bootstrapping base system") 15 (some 5) 250
    |>.add_task ("debconf") ("Preparing debconf database") 16 (some 6) 0
    |>.add_task ("repository") ("Fetching repository information") 20 (some 10) 0
    |>.add_task ("updatebase") ("Updating base system") 25 (some 65) 1000
    |>.add_task ("instsoft") ("Software installation") 75 none 2500
    |>.add_task ("configure") ("Adapting system and package configuration") 90 none 0
    |>.add_task ("tests") ("Running tests") 95 none 0
    |>.add_task ("finish") ("Finishing installation") 98 none 0
    |>.add_task ("audit") ("Audit") ⟨199, 2⟩ none 0
    |>.add_task ("savelog") ("Installation finished") 100 none 0
    |>.attachParser ("defvar") (LogParser.basic ("Starting installation") LinePattern.faiActionInstall) false 0
    |>.attachParser ("partition") (LogParser.basic ("Partitioning harddisk") LinePattern.executingParted) false 10
    |>.attachParser ("partition") (LogParser.basic ("Creating swap") LinePattern.executingMkswap) false 2
    |>.attachParser ("partition") (LogParser.basic ("Creating filesystems") LinePattern.executingMkfs) false 10
    |>.attachParser ("extrbase") (LogParser.bootstrapPackageVersion ("Retrieving")) true 0
    |>.attachParser ("extrbase") (LogParser.bootstrapPackageVersion ("Validating")) true 0
    |>.attachParser ("extrbase") (LogParser.basic ("Unpacking the base system") LinePattern.unpackingBaseSystem) false 0
    |>.attachParser ("extrbase") (LogParser.bootstrapPackage ("Extracting")) true 0
    |>.attachParser ("extrbase") (LogParser.bootstrapPackage ("Unpacking")) true 0
    |>.attachParser ("extrbase") (LogParser.bootstrapPackage ("Configuring")) true 0
    |>.attachParser ("extrbase") (LogParser.basic ("Resolving dependencies") LinePattern.resolvingDependencies) false 0
    |>.attachParser ("extrbase") (LogParser.basic ("Checking repository content") LinePattern.checkingComponent) false 0
    |>.attachParser ("instsoft") LogParser.installSummary false 0
    |>.attachParser ("instsoft") LogParser.packageReceive true 0
    |>.attachParser ("instsoft") (LogParser.packageInstall ("Unpacking")) true 0
    |>.attachParser ("instsoft") (LogParser.packageInstall ("Setting up")) true 0
    |>.attachParser ("configure") (LogParser.shell ("Executing script {script} of class {class}")) false 20
    |>.attachParser ("tests") (LogParser.shell ("Running test {script}")) false 5
  (s, r0.2)

/-- Method `FaiProgress.run` on a given input. The generator `lines()`
terminates only when `active` becomes false (at the end of a finite log
it would keep polling), so the epilogue — the forced final
`update_task(100, "faiend", ...)`, the second Display cleanup and the
sink shutdown — runs exactly when some line deactivated the engine. -/
def runFaiProgress (input : List String) : FaiProgressState × List DisplayEvent :=
  let r0 := mkFaiProgress false
  let r1 := r0.1.dispatchLines input
  if r1.1.active then (r1.1, r0.2 ++ r1.2)
  else (r1.1, r0.2 ++ r1.2
    ++ [DisplayEvent.updateTask 100 ("faiend") ("Finished"), DisplayEvent.cleanup])

/-- The engine state right after `FaiProgress.__init__` with the shipped
configuration and debugging off. -/
def initialEngineState : FaiProgressState := (mkFaiProgress false).1

/-- The percentages a display sees, in order (both plain updates and
task updates carry one). -/
def displayProgressValues : List DisplayEvent → List Frac
  | [] => []
  | DisplayEvent.update p _ :: es => p :: displayProgressValues es
  | DisplayEvent.updateTask p _ _ :: es => p :: displayProgressValues es
  | _ :: es => displayProgressValues es

/-- Number of `cleanup` calls in a display trace. -/
def countCleanup : List DisplayEvent → Nat
  | [] => 0
  | DisplayEvent.cleanup :: es => countCleanup es + 1
  | _ :: es => countCleanup es

/-- Number of `update_task` calls in a display trace. -/
def countUpdateTask : List DisplayEvent → Nat
  | [] => 0
  | DisplayEvent.updateTask _ _ _ :: es => countUpdateTask es + 1
  | _ :: es => countUpdateTask es

/-- Some reported percentage exceeds 100. -/
def overshoots100 (vs : List Frac) : Bool :=
  vs.any (fun v => Frac.blt 100 v)

/-- Some reported percentage is strictly below its predecessor. -/
def hasAdjacentDecrease : List Frac → Bool
  | a :: b :: rest => Frac.blt b a || hasAdjacentDecrease (b :: rest)
  | _ => false

/-- The parser classes of the global parser list after `__init__`, in
registration order. -/
def initialGlobalKinds : List LogParser :=
  initialEngineState.global_parsers.map ParserInst.kind

/-- Input that enters the tests task, exhausts its six expected steps
with seven shell-script lines, and then transitions onward. -/
def overshootInput : List String :=
  ["Calling task_tests",
   "Executing shell: a/b", "Executing shell: a/b", "Executing shell: a/b",
   "Executing shell: a/b", "Executing shell: a/b", "Executing shell: a/b",
   "Executing shell: a/b",
   "Calling task_finish"]

/-- Input that enters the tests task and leaves it after a single step
(one of six expected). -/
def earlyExitInput2 : List String :=
  ["Calling task_tests", "Executing shell: a/b"]

/-- The same input followed by the transition that leaves the tests
task early. -/
def earlyExitInput3 : List String :=
  ["Calling task_tests", "Executing shell: a/b", "Calling task_finish"]

/-- Modelled from the spec: the per-task completion fraction
`completionFraction = min(steps / expectedSteps, 1)` with
`expectedSteps == 0` treated as `1` (spec section 3). The guarded,
clamped fraction is implemented by the `FaiTask.get_progress` of the
newer code base that src/test/core.py tests and src/fai_progress/main.py
calls; that file is absent from src/, whose
`FaiProgress.progress_step_length` divides without any guard. The
function is total, which models that computing it never raises. -/
def completionFraction (steps expectedSteps : ℕ) : ℚ :=
  if expectedSteps = 0 then 1 else min ((steps : ℚ) / (expectedSteps : ℚ)) 1

/-- A message template as parsed by `str.format_map`: literal segments
interleaved with named replacement fields. -/
inductive TmplPart
  | lit (s : String)
  | field (name : String)
deriving DecidableEq

/-- The replacement-field names of a template, in order. -/
def templateFields : List TmplPart → List String
  | [] => []
  | TmplPart.lit _ :: r => templateFields r
  | TmplPart.field n :: r => n :: templateFields r

/-- The error `str.format_map` raises on a missing key (a Python
KeyError naming the field; the spec calls it `TemplateFieldError`). -/
inductive TemplateError
  | keyError (name : String)
deriving DecidableEq

/-- Render a template against an environment, failing on the first
field that the environment does not provide — the behaviour of
`message_template.format_map(mapping)`. -/
def formatMapTemplate : List TmplPart → List (String × String) →
    Except TemplateError String
  | [], _ => Except.ok ""
  | TmplPart.lit s :: r, env =>
    (formatMapTemplate r env).map (fun t => s ++ t)
  | TmplPart.field n :: r, env =>
    match env.lookup n with
    | none => Except.error (TemplateError.keyError n)
    | some v => (formatMapTemplate r env).map (fun t => v ++ t)

/-- A validated `BasicLineParser` template/pattern pair. `groupNames`
are the named capture groups of the compiled regular expression
(`pattern.groupindex` keys). -/
structure BasicLineParserModel where
  message_template : List TmplPart
  groupNames : List String
deriving DecidableEq

/-- Construction of a `BasicLineParser`
(`BasicLineParser.__init__`): the template is rendered once against
`pattern.groupindex`, eagerly, so a template field without a matching
named group fails construction with a KeyError; the substituted values
(group indices in Python) are irrelevant to the check and modelled as
empty strings. -/
def mkBasicLineParser (tmpl : List TmplPart) (groupNames : List String) :
    Except TemplateError BasicLineParserModel :=
  match formatMapTemplate tmpl (groupNames.map (fun n => (n, ""))) with
  | Except.error e => Except.error e
  | Except.ok _ => Except.ok ⟨tmpl, groupNames⟩

/-- Line processing of a validated parser
(`BasicLineParser._on_match`): the template is rendered against
`match.groupdict()`, which binds exactly the named groups of the
pattern to their captures. -/
def renderOnMatch (p : BasicLineParserModel) (capture : String → String) :
    Except TemplateError String :=
  formatMapTemplate p.message_template (p.groupNames.map (fun n => (n, capture n)))

/-- Operations a run performs against one `FaiTask` after construction:
`add_parser` attachments and `update_recurrent_steps` corrections (the
latter reached through `FaiProgress.update_package_count`). -/
inductive TaskOp
  | attach (kind : LogParser) (recurring : Bool) (expected_hits : Int)
  | observeRecurring (count : Int)
deriving DecidableEq

/-- Apply one task operation. -/
def applyTaskOp (t : FaiTask) : TaskOp → FaiTask
  | TaskOp.attach kind recurring expected_hits =>
    t.addParser (mkParser kind) recurring expected_hits
  | TaskOp.observeRecurring count => t.update_recurrent_steps count

/-- Apply a sequence of task operations from left to right. -/
def applyTaskOps (t : FaiTask) : List TaskOp → FaiTask
  | [] => t
  | op :: ops => applyTaskOps (applyTaskOp t op) ops

/-- Sum of the expected hits of the non-recurring attachments in a
sequence of task operations. -/
def opsNonRecurringHits : List TaskOp → Int
  | [] => 0
  | TaskOp.attach _ false h :: ops => h + opsNonRecurringHits ops
  | _ :: ops => opsNonRecurringHits ops

/-- Number of recurring attachments in a sequence of task operations. -/
def opsRecurringFactor : List TaskOp → Int
  | [] => 0
  | TaskOp.attach _ true _ :: ops => 1 + opsRecurringFactor ops
  | _ :: ops => opsRecurringFactor ops

/-- The recurring-steps estimate in force after a sequence of task
operations, starting from the constructor argument. -/
def opsRecurringEstimate (e0 : Int) : List TaskOp → Int
  | [] => e0
  | TaskOp.observeRecurring c :: ops => opsRecurringEstimate c ops
  | _ :: ops => opsRecurringEstimate e0 ops

/-- Operations performed on the signal file by the `SignalProgress`
thread. -/
inductive FileOp
  | write (chunk : String)
  | flush
deriving DecidableEq

/-- Floor of a fraction with positive denominator. -/
def Frac.floorInt (q : Frac) : Int := Int.fdiv q.num q.den

/-- Round to the nearest integer, ties to even — the rounding of
fixed-point float formatting, idealised over exact values. -/
def roundHalfEven (q : Frac) : Int :=
  let f := q.floorInt
  let r : Frac := q - ⟨f, 1⟩
  if Frac.blt r ⟨1, 2⟩ then f
  else if Frac.blt ⟨1, 2⟩ r then f + 1
  else if f % 2 == 0 then f else f + 1

/-- Fixed-point rendering with one decimal digit: the Python format
specification .1f applied to a (nonnegative) progress value. -/
def formatFixed1 (q : Frac) : String :=
  let n := roundHalfEven (q * ⟨10, 1⟩)
  (if n < 0 then "-" else "")
    ++ toString (n.natAbs / 10) ++ "." ++ toString (n.natAbs % 10)

/-- Method `SignalProgress.signal_progress`: the queued message for one
progress update. -/
def signalMessage (progress : Frac) : String :=
  "PROGRESS " ++ formatFixed1 progress

/-- The write loop of `SignalProgress.run`: each dequeued message is
printed (newline appended) and the handle flushed before the next
dequeue; the `None` shutdown token breaks the loop and closes the
file. An exhausted finite queue models a blocked `get`, after which
nothing further is written. -/
def signalWriteLoop : List (Option String) → List FileOp
  | [] => []
  | none :: _ => []
  | some m :: rest => FileOp.write (m ++ "\n") :: FileOp.flush :: signalWriteLoop rest

/-- Method `SignalProgress.run`: the signal file is opened only when a
path was supplied and that path already exists; otherwise the thread
returns immediately and nothing is ever written. -/
def signalProgressRun (path : Option String) (pathExists : Bool)
    (queue : List (Option String)) : List FileOp :=
  match path with
  | none => []
  | some _ => if pathExists then signalWriteLoop queue else []

theorem countCleanup_append (a b : List DisplayEvent) :
    countCleanup (a ++ b) = countCleanup a + countCleanup b := by
  induction a with
  | nil => simp [countCleanup]
  | cons e a ih =>
    cases e with
    | update p m => simp [countCleanup, ih]
    | updateTask p n d => simp [countCleanup, ih]
    | debug m => simp [countCleanup, ih]
    | cleanup =>
      simp [countCleanup, ih]
      omega

theorem dispatchParsers_none (l : List Char) (ps : List ParserInst)
    (h : ∀ p ∈ ps, p.kind.tryMatch l = none) : dispatchParsers l ps = none := by
  induction ps with
  | nil => rfl
  | cons p ps ih =>
    have hp := h p (List.mem_cons_self p ps)
    have hr := ih (fun q hq => h q (List.mem_cons_of_mem p hq))
    simp [dispatchParsers, hp, hr]

theorem dispatchParsers_kinds (l : List Char) (ps ps2 : List ParserInst) (e : EngineEvent)
    (h : dispatchParsers l ps = some (ps2, e)) :
    ps2.map ParserInst.kind = ps.map ParserInst.kind := by
  induction ps generalizing ps2 with
  | nil => simp [dispatchParsers] at h
  | cons p rest ih =>
    cases hm : p.kind.tryMatch l with
    | some ev =>
      simp only [dispatchParsers, hm, Option.some.injEq, Prod.mk.injEq] at h
      obtain ⟨h1, h2⟩ := h
      subst h1
      simp
    | none =>
      cases hd : dispatchParsers l rest with
      | none => simp [dispatchParsers, hm, hd] at h
      | some pr =>
        obtain ⟨ps3, e3⟩ := pr
        simp only [dispatchParsers, hm, hd, Option.some.injEq, Prod.mk.injEq] at h
        obtain ⟨h1, h2⟩ := h
        subst h1
        subst h2
        simp [ih ps3 hd]

theorem setCurrentTaskData_globals (s : FaiProgressState) (t : FaiTask) :
    (s.setCurrentTaskData t).global_parsers = s.global_parsers := by
  unfold FaiProgressState.setCurrentTaskData
  split <;> rfl

theorem applyEvent_globals (s : FaiProgressState) (e : EngineEvent) :
    ((s.applyEvent e).1).global_parsers = s.global_parsers := by
  cases e with
  | updateMessage m =>
    simp only [FaiProgressState.applyEvent, FaiProgressState.update_message]
    split
    · rfl
    · split <;> rfl
  | nextTask n =>
    simp only [FaiProgressState.applyEvent, FaiProgressState.next_task]
    split
    · rfl
    · split <;> rfl
  | updatePackageCount u i r =>
    simp only [FaiProgressState.applyEvent, FaiProgressState.update_package_count]
    exact setCurrentTaskData_globals ..
  | handleError m => rfl
  | hangup => rfl

theorem applyEvent_cleanup (s : FaiProgressState) (e : EngineEvent)
    (h : ((s.applyEvent e).1).active = true) :
    countCleanup (s.applyEvent e).2 = 0 := by
  cases e with
  | updateMessage m =>
    simp only [FaiProgressState.applyEvent, FaiProgressState.update_message]
    rfl
  | nextTask n =>
    simp only [FaiProgressState.applyEvent, FaiProgressState.next_task]
    split
    · rfl
    · split <;> rfl
  | updatePackageCount u i r => rfl
  | handleError m =>
    exact absurd h (by simp [FaiProgressState.applyEvent, FaiProgressState.handle_error])
  | hangup => rfl

theorem process_input_globals_kinds (s : FaiProgressState) (line : String) :
    ((s.process_input line).1).global_parsers.map ParserInst.kind
      = s.global_parsers.map ParserInst.kind := by
  rcases hg : dispatchParsers line.toList s.global_parsers with - | ⟨gps, e⟩
  · rcases ht : dispatchParsers line.toList (s.currentTaskData).parsers with - | ⟨tps, e⟩
    · simp only [FaiProgressState.process_input, hg, ht]
    · simp only [FaiProgressState.process_input, hg, ht]
      rw [applyEvent_globals, setCurrentTaskData_globals]
  · simp only [FaiProgressState.process_input, hg]
    rw [applyEvent_globals]
    exact dispatchParsers_kinds _ _ _ _ hg

theorem process_input_cleanup (s : FaiProgressState) (line : String)
    (h : ((s.process_input line).1).active = true) :
    countCleanup (s.process_input line).2 = 0 := by
  have hdbg : ∀ (b : Bool) (msg : String),
      countCleanup (if b then [DisplayEvent.debug msg] else []) = 0 := by
    intro b msg; cases b <;> rfl
  rcases hg : dispatchParsers line.toList s.global_parsers with - | ⟨gps, e⟩
  · rcases ht : dispatchParsers line.toList (s.currentTaskData).parsers with - | ⟨tps, e⟩
    · simp only [FaiProgressState.process_input, hg, ht]
      exact hdbg ..
    · simp only [FaiProgressState.process_input, hg, ht] at h ⊢
      rw [countCleanup_append, hdbg, applyEvent_cleanup _ _ h]
  · simp only [FaiProgressState.process_input, hg] at h ⊢
    rw [countCleanup_append, hdbg, applyEvent_cleanup _ _ h]

theorem dispatchLines_inactive (s : FaiProgressState) (ls : List String)
    (h : s.active = false) : s.dispatchLines ls = (s, []) := by
  cases ls with
  | nil => rfl
  | cons l ls => simp [FaiProgressState.dispatchLines, h]

theorem dispatchLines_append (s : FaiProgressState) (xs ys : List String) :
    s.dispatchLines (xs ++ ys)
      = (((s.dispatchLines xs).1.dispatchLines ys).1,
          (s.dispatchLines xs).2 ++ ((s.dispatchLines xs).1.dispatchLines ys).2) := by
  induction xs generalizing s with
  | nil => simp [FaiProgressState.dispatchLines]
  | cons x xs ih =>
    by_cases h : s.active
    · simp only [List.cons_append, FaiProgressState.dispatchLines, h, if_true]
      simp only [List.append_eq, ih, List.append_assoc]
    · have h2 : s.active = false := by simpa using h
      simp [dispatchLines_inactive _ _ h2]

theorem dispatchLines_active_mono (s : FaiProgressState) (ls : List String)
    (h : (s.dispatchLines ls).1.active = true) : s.active = true := by
  cases ls with
  | nil => exact h
  | cons l ls =>
    by_cases ha : s.active
    · exact ha
    · have h2 : s.active = false := by simpa using ha
      rw [dispatchLines_inactive s _ h2] at h
      exact absurd h (by simp [h2])

theorem dispatchLines_cleanup (s : FaiProgressState) (ls : List String)
    (h : (s.dispatchLines ls).1.active = true) :
    countCleanup (s.dispatchLines ls).2 = 0 := by
  induction ls generalizing s with
  | nil => rfl
  | cons l ls ih =>
    by_cases ha : s.active
    · simp only [FaiProgressState.dispatchLines, ha, if_true] at h ⊢
      rw [countCleanup_append]
      have h1 : ((s.process_input l).1).active = true := dispatchLines_active_mono _ _ h
      rw [process_input_cleanup _ _ h1, ih _ h]
    · have h2 : s.active = false := by simpa using ha
      rw [dispatchLines_inactive s _ h2]
      rfl

theorem dispatchLines_globals_kinds (s : FaiProgressState) (ls : List String) :
    ((s.dispatchLines ls).1).global_parsers.map ParserInst.kind
      = s.global_parsers.map ParserInst.kind := by
  induction ls generalizing s with
  | nil => rfl
  | cons l ls ih =>
    by_cases ha : s.active
    · simp only [FaiProgressState.dispatchLines, ha, if_true]
      rw [ih, process_input_globals_kinds]
    · have h2 : s.active = false := by simpa using ha
      rw [dispatchLines_inactive s _ h2]

theorem process_input_fatal (s : FaiProgressState)
    (hk : s.global_parsers.map ParserInst.kind = initialGlobalKinds) :
    ((s.process_input ("ldap2fai-error:x")).1).active = false
    ∧ countCleanup (s.process_input ("ldap2fai-error:x")).2 = 1 := by
  have hdbg : ∀ (b : Bool) (msg : String),
      countCleanup (if b then [DisplayEvent.debug msg] else []) = 0 := by
    intro b msg; cases b <;> rfl
  have hhead : (s.global_parsers.map ParserInst.kind).head? = some LogParser.ldap2faiError := by
    rw [hk]; decide
  cases hg : s.global_parsers with
  | nil => rw [hg] at hhead; simp at hhead
  | cons p ps =>
    rw [hg] at hhead
    simp only [List.map_cons, List.head?_cons, Option.some.injEq] at hhead
    have hm : p.kind.tryMatch (("ldap2fai-error:x").toList)
        = some (EngineEvent.handleError (String.mk (("ldap2fai-error:x").toList))) := by
      rw [hhead]; rfl
    have hd : dispatchParsers (("ldap2fai-error:x").toList) s.global_parsers
        = some ({ p with hits := p.hits + 1 } :: ps,
            EngineEvent.handleError (String.mk (("ldap2fai-error:x").toList))) := by
      rw [hg]
      simp only [dispatchParsers]
      rw [hm]
    constructor
    · simp only [FaiProgressState.process_input, hd, FaiProgressState.applyEvent,
        FaiProgressState.handle_error]
    · simp only [FaiProgressState.process_input, hd, FaiProgressState.applyEvent,
        FaiProgressState.handle_error]
      rw [countCleanup_append, hdbg]
      rfl

/-- C1 counterexample: the engine enters the tests task (install target
95, six expected steps), observes a single step — so the accumulated
global progress is 95/6 — and then a finish marker leaves the task
early. The frozen floor is 95, the full target of the outgoing task,
and not the current global progress 95/6 stated by the claim. -/
theorem faiC1_counterexample :
    ((initialEngineState.dispatchLines earlyExitInput2).1.current_task = some ("tests"))
    ∧ ((initialEngineState.dispatchLines earlyExitInput3).1.current_task = some ("finish"))
    ∧ Frac.beq ((initialEngineState.dispatchLines earlyExitInput3).1.current_progress_base)
        ((initialEngineState.dispatchLines earlyExitInput2).1.current_progress) = false
    ∧ Frac.beq ((initialEngineState.dispatchLines earlyExitInput3).1.current_progress_base)
        95 = true := by
  decide

/-- C1 (amended): on every transition to a task different from the
current one, `next_task` first snaps the global progress up to the
current ceiling — the outgoing task target — and freezes the new floor
there, regardless of how far the outgoing task actually got; the new
ceiling is the target progress of the entered task and the Display is
notified once at the frozen value. -/
theorem faiC1_theorem (s : FaiProgressState) (name : String) (t : FaiTask)
    (h1 : s.tasks.lookup name = some t)
    (h2 : (s.current_task == some name) = false) :
    (s.next_task name).1.current_progress_base = s.current_progress_ceiling
    ∧ (s.next_task name).1.current_progress = s.current_progress_ceiling
    ∧ (s.next_task name).1.current_progress_ceiling = t.get_target_progress s.action
    ∧ (s.next_task name).2
        = [DisplayEvent.updateTask s.current_progress_ceiling name t.description] := by
  simp [FaiProgressState.next_task, h1, h2]

/-- C1 witness: the amended theorem applied to the freshly initialised
engine entering the confdir task. -/
theorem faiC1_witness :
    (initialEngineState.next_task ("confdir")).1.current_progress_base
        = initialEngineState.current_progress_ceiling
    ∧ (initialEngineState.next_task ("confdir")).1.current_progress
        = initialEngineState.current_progress_ceiling
    ∧ (initialEngineState.next_task ("confdir")).1.current_progress_ceiling
        = (mkFaiTask ("Retrieving initial client configuration") ⟨1, 4⟩ none 0).get_target_progress
            initialEngineState.action
    ∧ (initialEngineState.next_task ("confdir")).2
        = [DisplayEvent.updateTask initialEngineState.current_progress_ceiling ("confdir")
            (mkFaiTask ("Retrieving initial client configuration") ⟨1, 4⟩ none 0).description] :=
  faiC1_theorem initialEngineState ("confdir")
    (mkFaiTask ("Retrieving initial client configuration") ⟨1, 4⟩ none 0)
    (by decide) (by decide)

/-- C2: with the shipped (correctly sorted) task configuration and
debugging off, the percentage stream the Display receives is neither
bounded by 100 nor non-decreasing: seven shell-script lines inside the
tests task push the reported value to 1235/12 (about 102.9), and the
following task transition reports 95 again. The comment inside
`update_message` states that the slowdown branch keeps the progress in
the defined progress range, which this run contradicts: the panic
factor shrinks each step but their sum is unbounded. -/
theorem faiC2_theorem :
    overshoots100 (displayProgressValues (runFaiProgress overshootInput).2) = true
    ∧ hasAdjacentDecrease (displayProgressValues (runFaiProgress overshootInput).2) = true := by
  decide

/-- C4 counterexample: a run whose input is a single fatal
ldap2fai-error line performs two Display cleanup calls — one from
`handle_error` and one from the epilogue of `run` — not exactly one as
the claim states. -/
theorem faiC4_counterexample :
    countCleanup (runFaiProgress [("ldap2fai-error:x")]).2 = 2
    ∧ countCleanup (runFaiProgress [("ldap2fai-error:x")]).2 ≠ 1 := by
  decide

/-- C4 (amended): whenever a fatal ldap2fai-error line is reached with
the engine still active, it halts all further line dispatch — the run
is identical whatever input follows the fatal line — and the whole run
performs exactly two Display cleanup calls: one from `handle_error` and
a second one from the epilogue of `run`, which executes unconditionally
once the dispatch loop stops. -/
theorem faiC4_theorem (pre post : List String)
    (h : ((initialEngineState.dispatchLines pre).1).active = true) :
    runFaiProgress (pre ++ ("ldap2fai-error:x") :: post)
        = runFaiProgress (pre ++ [("ldap2fai-error:x")])
    ∧ countCleanup (runFaiProgress (pre ++ ("ldap2fai-error:x") :: post)).2 = 2 := by
  have hk : ((initialEngineState.dispatchLines pre).1).global_parsers.map ParserInst.kind
      = initialGlobalKinds :=
    dispatchLines_globals_kinds initialEngineState pre
  have hfatal := process_input_fatal ((initialEngineState.dispatchLines pre).1) hk
  have hstep : ∀ rest : List String,
      ((initialEngineState.dispatchLines pre).1).dispatchLines (("ldap2fai-error:x") :: rest)
        = ((((initialEngineState.dispatchLines pre).1).process_input ("ldap2fai-error:x")).1,
            (((initialEngineState.dispatchLines pre).1).process_input ("ldap2fai-error:x")).2) := by
    intro rest
    simp only [FaiProgressState.dispatchLines, h, if_true]
    rw [dispatchLines_inactive _ rest hfatal.1]
    simp
  have hruns : ∀ rest : List String,
      runFaiProgress (pre ++ ("ldap2fai-error:x") :: rest)
        = (((initialEngineState.dispatchLines pre).1.process_input ("ldap2fai-error:x")).1,
            (mkFaiProgress false).2
              ++ ((initialEngineState.dispatchLines pre).2
                ++ ((initialEngineState.dispatchLines pre).1.process_input ("ldap2fai-error:x")).2)
              ++ [DisplayEvent.updateTask 100 ("faiend") ("Finished"), DisplayEvent.cleanup]) := by
    intro rest
    have happ := dispatchLines_append initialEngineState pre (("ldap2fai-error:x") :: rest)
    simp only [runFaiProgress]
    rw [show (mkFaiProgress false).1 = initialEngineState from rfl]
    rw [happ, hstep rest]
    simp [hfatal.1]
  constructor
  · rw [hruns post, hruns []]
  · rw [hruns post]
    simp only [countCleanup_append]
    rw [dispatchLines_cleanup initialEngineState pre h, hfatal.2]
    rfl

/-- C4 witness: the amended theorem applied to a run that meets the
fatal line first, with one further line behind it. -/
theorem faiC4_witness :
    runFaiProgress ([] ++ ("ldap2fai-error:x") :: [("later line")])
        = runFaiProgress ([] ++ [("ldap2fai-error:x")])
    ∧ countCleanup (runFaiProgress ([] ++ ("ldap2fai-error:x") :: [("later line")])).2 = 2 :=
  faiC4_theorem [] [("later line")] (by decide)

/-- C5: calling `next_task` twice in a row with the same identifier is
idempotent: the second call, finding the task already current, returns
without touching the engine state and without notifying the Display,
so the pair of calls produces exactly one update_task notification. -/
theorem faiC5_theorem (s : FaiProgressState) (name : String) (t : FaiTask)
    (h1 : s.tasks.lookup name = some t)
    (h2 : (s.current_task == some name) = false) :
    (s.next_task name).1.next_task name = ((s.next_task name).1, [])
    ∧ countUpdateTask ((s.next_task name).2 ++ ((s.next_task name).1.next_task name).2) = 1 := by
  have hfirst : s.next_task name
      = ({ s with
            current_progress := s.current_progress_ceiling
            current_task := some name
            current_progress_base := s.current_progress_ceiling
            current_progress_ceiling := t.get_target_progress s.action
            current_progress_slowdown_barrier :=
              s.current_progress_ceiling
                + (t.get_target_progress s.action - s.current_progress_ceiling) * ⟨9, 10⟩ },
          [DisplayEvent.updateTask s.current_progress_ceiling name t.description]) := by
    simp [FaiProgressState.next_task, h1, h2]
  have hsecond : (s.next_task name).1.next_task name = ((s.next_task name).1, []) := by
    rw [hfirst]
    simp only [FaiProgressState.next_task, h1, beq_self_eq_true, if_true]
  refine ⟨hsecond, ?_⟩
  rw [hsecond, hfirst]
  rfl

/-- C5 witness: the idempotence theorem applied to the freshly
initialised engine and a duplicated confdir marker. -/
theorem faiC5_witness :
    (initialEngineState.next_task ("confdir")).1.next_task ("confdir")
        = ((initialEngineState.next_task ("confdir")).1, [])
    ∧ countUpdateTask ((initialEngineState.next_task ("confdir")).2
        ++ ((initialEngineState.next_task ("confdir")).1.next_task ("confdir")).2) = 1 :=
  faiC5_theorem initialEngineState ("confdir")
    (mkFaiTask ("Retrieving initial client configuration") ⟨1, 4⟩ none 0)
    (by decide) (by decide)

/-- C8: a line that matches neither a global parser nor any parser of
the current task leaves the whole engine state — every progress value,
the current task, every expected-step counter and every parser hit
counter — unchanged; the only effect is the optional debug echo of the
line. -/
theorem faiC8_theorem (s : FaiProgressState) (line : String)
    (h : ∀ p ∈ s.global_parsers ++ (s.currentTaskData).parsers,
      p.kind.tryMatch line.toList = none) :
    s.process_input line = (s, if s.debug_mode then [DisplayEvent.debug line] else []) := by
  have hg : dispatchParsers line.toList s.global_parsers = none :=
    dispatchParsers_none _ _ (fun p hp => h p (List.mem_append_left _ hp))
  have ht : dispatchParsers line.toList (s.currentTaskData).parsers = none :=
    dispatchParsers_none _ _ (fun p hp => h p (List.mem_append_right _ hp))
  simp only [FaiProgressState.process_input, hg, ht]

/-- C8 witness: the frame theorem applied to the freshly initialised
engine and a line no shipped parser matches. -/
theorem faiC8_witness :
    initialEngineState.process_input ("hello")
      = (initialEngineState,
          if initialEngineState.debug_mode
          then [DisplayEvent.debug ("hello")] else []) :=
  faiC8_theorem initialEngineState ("hello") (by decide)

/-- C3: the per-task completion fraction is always within the unit
interval; for a task whose expected step count is zero it is exactly
one. The function is total (the division is reached only after the
zero test), which models that computing it never raises. Settled
against the spec-modelled `completionFraction`, since the clamped
fraction is implemented only by the newer `FaiTask.get_progress` that
src/test/core.py exercises, a file absent from src/. -/
theorem faiC3_theorem (steps expectedSteps : ℕ) :
    0 ≤ completionFraction steps expectedSteps
    ∧ completionFraction steps expectedSteps ≤ 1
    ∧ completionFraction steps 0 = 1 := by
  refine ⟨?_, ?_, by simp [completionFraction]⟩
  · unfold completionFraction
    split
    · norm_num
    · exact le_min (by positivity) (by norm_num)
  · unfold completionFraction
    split
    · norm_num
    · exact min_le_right _ _

theorem lookup_map_pair_isSome (gs : List String) (f : String → String) (n : String) :
    (((gs.map (fun g => (g, f g))).lookup n).isSome = true) ↔ n ∈ gs := by
  induction gs with
  | nil => simp [List.lookup]
  | cons g gs ih =>
    by_cases h : n = g
    · subst h
      simp [List.lookup]
    · have hb : (n == g) = false := by simpa using h
      simp [List.lookup, hb, ih, h]

theorem formatMap_error_of_missing (tmpl : List TmplPart) (env : List (String × String))
    (h : ∃ n ∈ templateFields tmpl, (env.lookup n) = none) :
    ∃ e, formatMapTemplate tmpl env = Except.error e := by
  induction tmpl with
  | nil => simp [templateFields] at h
  | cons part rest ih =>
    cases part with
    | lit q =>
      obtain ⟨n, hn, hl⟩ := h
      obtain ⟨e, he⟩ := ih ⟨n, by simpa [templateFields] using hn, hl⟩
      exact ⟨e, by simp [formatMapTemplate, he, Except.map]⟩
    | field m =>
      by_cases hm : env.lookup m = none
      · exact ⟨TemplateError.keyError m, by simp [formatMapTemplate, hm]⟩
      · obtain ⟨n, hn, hl⟩ := h
        have hne : n ≠ m := fun heq => hm (heq ▸ hl)
        obtain ⟨e, he⟩ := ih ⟨n, by
          rcases (by simpa [templateFields] using hn : n = m ∨ n ∈ templateFields rest) with
            heq | hmem
          · exact absurd heq hne
          · exact hmem, hl⟩
        obtain ⟨v, hv⟩ := Option.ne_none_iff_exists.mp hm
        exact ⟨e, by simp [formatMapTemplate, ← hv, he, Except.map]⟩

theorem formatMap_ok_of_present (tmpl : List TmplPart) (env : List (String × String))
    (h : ∀ n ∈ templateFields tmpl, ((env.lookup n).isSome = true)) :
    ∃ s, formatMapTemplate tmpl env = Except.ok s := by
  induction tmpl with
  | nil => exact ⟨"", rfl⟩
  | cons part rest ih =>
    cases part with
    | lit q =>
      obtain ⟨t, ht⟩ := ih (fun n hn => h n (by simpa [templateFields] using hn))
      exact ⟨q ++ t, by simp [formatMapTemplate, ht, Except.map]⟩
    | field m =>
      have hm := h m (by simp [templateFields])
      obtain ⟨v, hv⟩ := Option.isSome_iff_exists.mp hm
      obtain ⟨t, ht⟩ := ih (fun n hn => h n (by simp [templateFields, hn]))
      exact ⟨v ++ t, by simp [formatMapTemplate, hv, ht, Except.map]⟩

theorem formatMap_present_of_ok (tmpl : List TmplPart) (env : List (String × String))
    (s : String) (h : formatMapTemplate tmpl env = Except.ok s) :
    ∀ n ∈ templateFields tmpl, ((env.lookup n).isSome = true) := by
  induction tmpl generalizing s with
  | nil => simp [templateFields]
  | cons part rest ih =>
    cases part with
    | lit q =>
      intro n hn
      cases hr : formatMapTemplate rest env with
      | error e => rw [formatMapTemplate, hr] at h; simp [Except.map] at h
      | ok t => exact ih t hr n (by simpa [templateFields] using hn)
    | field m =>
      intro n hn
      cases hm : env.lookup m with
      | none => rw [formatMapTemplate, hm] at h; simp at h
      | some v =>
        rcases (by simpa [templateFields] using hn : n = m ∨ n ∈ templateFields rest) with
          heq | hmem
        · subst heq; simp [hm]
        · cases hr : formatMapTemplate rest env with
          | error e => rw [formatMapTemplate, hm, hr] at h; simp [Except.map] at h
          | ok t => exact ih t hr n hmem

/-- C6: if the message template mentions a replacement field that is
not among the named capture groups of the pattern, construction of the
parser fails with an error; and for every parser whose construction
succeeded, rendering during line processing always succeeds, for any
captured values — the template/group consistency is checked once,
eagerly, never while processing lines. -/
theorem faiC6_theorem (tmpl : List TmplPart) (gs : List String) :
    ((∃ n ∈ templateFields tmpl, ¬ n ∈ gs) →
        ∃ e, mkBasicLineParser tmpl gs = Except.error e)
    ∧ (∀ p (capture : String → String), mkBasicLineParser tmpl gs = Except.ok p →
        ∃ s, renderOnMatch p capture = Except.ok s) := by
  constructor
  · rintro ⟨n, hn, hng⟩
    have hnone : ((gs.map (fun g => (g, ""))).lookup n) = none := by
      cases hx : (gs.map (fun g => (g, ""))).lookup n with
      | none => rfl
      | some v =>
        exact absurd ((lookup_map_pair_isSome gs (fun _ => "") n).mp (by simp [hx])) hng
    obtain ⟨e, he⟩ := formatMap_error_of_missing tmpl _ ⟨n, hn, hnone⟩
    exact ⟨e, by simp [mkBasicLineParser, he]⟩
  · intro p capture hok
    cases hf : formatMapTemplate tmpl (gs.map (fun g => (g, ""))) with
    | error e => simp [mkBasicLineParser, hf] at hok
    | ok s0 =>
      have hp : p = ⟨tmpl, gs⟩ := by
        simp only [mkBasicLineParser, hf, Except.ok.injEq] at hok
        exact hok.symm
      subst hp
      have hpres := formatMap_present_of_ok tmpl _ s0 hf
      apply formatMap_ok_of_present
      intro n hn
      exact (lookup_map_pair_isSome gs capture n).mpr
        ((lookup_map_pair_isSome gs (fun _ => "") n).mp (hpres n hn))

/-- C6 witness: a template with field x over a pattern without named
groups fails construction, and a validated parser with field y renders
without error. -/
theorem faiC6_witness :
    (∃ e, mkBasicLineParser [TmplPart.field ("x")] [] = Except.error e)
    ∧ (∃ s, renderOnMatch ⟨[TmplPart.field ("y")], [("y")]⟩ (fun _ => ("v"))
        = Except.ok s) := by
  constructor
  · exact (faiC6_theorem [TmplPart.field ("x")] []).1 ⟨"x", by simp [templateFields], by simp⟩
  · exact (faiC6_theorem [TmplPart.field ("y")] [("y")]).2
      ⟨[TmplPart.field ("y")], [("y")]⟩ (fun _ => ("v")) (by rfl)

theorem applyTaskOps_fields (ops : List TaskOp) : ∀ t : FaiTask,
    (applyTaskOps t ops).expected_non_recurring_steps
        = t.expected_non_recurring_steps + opsNonRecurringHits ops
    ∧ (applyTaskOps t ops).recurring_step_count
        = t.recurring_step_count + opsRecurringFactor ops
    ∧ (applyTaskOps t ops).expected_recurring_steps
        = opsRecurringEstimate t.expected_recurring_steps ops
    ∧ (t.expected_steps
          = t.recurring_step_count * t.expected_recurring_steps
            + t.expected_non_recurring_steps →
        (applyTaskOps t ops).expected_steps
          = (applyTaskOps t ops).recurring_step_count
              * (applyTaskOps t ops).expected_recurring_steps
            + (applyTaskOps t ops).expected_non_recurring_steps) := by
  induction ops with
  | nil =>
    intro t
    exact ⟨by simp [applyTaskOps, opsNonRecurringHits],
      by simp [applyTaskOps, opsRecurringFactor],
      by simp [applyTaskOps, opsRecurringEstimate], fun h => h⟩
  | cons op ops ih =>
    intro t
    obtain ⟨h1, h2, h3, h4⟩ := ih (applyTaskOp t op)
    have hinv : (applyTaskOp t op).expected_steps
        = (applyTaskOp t op).recurring_step_count
            * (applyTaskOp t op).expected_recurring_steps
          + (applyTaskOp t op).expected_non_recurring_steps := by
      cases op with
      | attach kind recurring hits =>
        cases recurring <;>
          simp [applyTaskOp, FaiTask.addParser, FaiTask.update_expected_steps]
      | observeRecurring c =>
        simp [applyTaskOp, FaiTask.update_recurrent_steps, FaiTask.update_expected_steps]
    cases op with
    | attach kind recurring hits =>
      cases recurring with
      | false =>
        refine ⟨?_, ?_, ?_, fun _ => h4 hinv⟩
        · rw [show applyTaskOps t (TaskOp.attach kind false hits :: ops)
              = applyTaskOps (applyTaskOp t (TaskOp.attach kind false hits)) ops from rfl, h1]
          simp [applyTaskOp, FaiTask.addParser, FaiTask.update_expected_steps,
            opsNonRecurringHits]
          omega
        · rw [show applyTaskOps t (TaskOp.attach kind false hits :: ops)
              = applyTaskOps (applyTaskOp t (TaskOp.attach kind false hits)) ops from rfl, h2]
          simp [applyTaskOp, FaiTask.addParser, FaiTask.update_expected_steps,
            opsRecurringFactor]
        · rw [show applyTaskOps t (TaskOp.attach kind false hits :: ops)
              = applyTaskOps (applyTaskOp t (TaskOp.attach kind false hits)) ops from rfl, h3]
          simp [applyTaskOp, FaiTask.addParser, FaiTask.update_expected_steps,
            opsRecurringEstimate]
      | true =>
        refine ⟨?_, ?_, ?_, fun _ => h4 hinv⟩
        · rw [show applyTaskOps t (TaskOp.attach kind true hits :: ops)
              = applyTaskOps (applyTaskOp t (TaskOp.attach kind true hits)) ops from rfl, h1]
          simp [applyTaskOp, FaiTask.addParser, FaiTask.update_expected_steps,
            opsNonRecurringHits]
        · rw [show applyTaskOps t (TaskOp.attach kind true hits :: ops)
              = applyTaskOps (applyTaskOp t (TaskOp.attach kind true hits)) ops from rfl, h2]
          simp [applyTaskOp, FaiTask.addParser, FaiTask.update_expected_steps,
            opsRecurringFactor]
          omega
        · rw [show applyTaskOps t (TaskOp.attach kind true hits :: ops)
              = applyTaskOps (applyTaskOp t (TaskOp.attach kind true hits)) ops from rfl, h3]
          simp [applyTaskOp, FaiTask.addParser, FaiTask.update_expected_steps,
            opsRecurringEstimate]
    | observeRecurring c =>
      refine ⟨?_, ?_, ?_, fun _ => h4 hinv⟩
      · rw [show applyTaskOps t (TaskOp.observeRecurring c :: ops)
            = applyTaskOps (applyTaskOp t (TaskOp.observeRecurring c)) ops from rfl, h1]
        simp [applyTaskOp, FaiTask.update_recurrent_steps, FaiTask.update_expected_steps,
          opsNonRecurringHits]
      · rw [show applyTaskOps t (TaskOp.observeRecurring c :: ops)
            = applyTaskOps (applyTaskOp t (TaskOp.observeRecurring c)) ops from rfl, h2]
        simp [applyTaskOp, FaiTask.update_recurrent_steps, FaiTask.update_expected_steps,
          opsRecurringFactor]
      · rw [show applyTaskOps t (TaskOp.observeRecurring c :: ops)
            = applyTaskOps (applyTaskOp t (TaskOp.observeRecurring c)) ops from rfl, h3]
        simp [applyTaskOp, FaiTask.update_recurrent_steps, FaiTask.update_expected_steps,
          opsRecurringEstimate]

/-- C7 counterexample: a fresh task to which exactly one non-recurring
matcher with three expected hits is attached has expected step count
four, not three — the non-recurring accumulator starts at one, so the
claimed identity expectedSteps = nonRecurringExpectedHits +
recurringFactor times expectedRecurringSteps fails when the first term
is read as the plain sum of expected hits. -/
theorem faiC7_counterexample :
    (applyTaskOps (mkFaiTask ("mock") 50 none 0)
        [TaskOp.attach LogParser.installSummary false 3]).expected_steps = 4
    ∧ ¬ ((applyTaskOps (mkFaiTask ("mock") 50 none 0)
          [TaskOp.attach LogParser.installSummary false 3]).expected_steps
        = opsNonRecurringHits [TaskOp.attach LogParser.installSummary false 3]
          + opsRecurringFactor [TaskOp.attach LogParser.installSummary false 3]
            * opsRecurringEstimate 0 [TaskOp.attach LogParser.installSummary false 3]) := by
  decide

/-- C7 (amended): after any sequence of attachments and
recurring-count corrections, the expected step count of a task equals
one plus the sum of the expected hits of its non-recurring matchers
plus the number of recurring matchers times the recurring-steps
estimate in force — the non-recurring term of `FaiTask.__init__`
starts at one, not zero. -/
theorem faiC7_theorem (description : String) (target : Frac) (soft : Option Frac)
    (e0 : Int) (ops : List TaskOp) :
    (applyTaskOps (mkFaiTask description target soft e0) ops).expected_steps
      = 1 + opsNonRecurringHits ops
        + opsRecurringFactor ops * opsRecurringEstimate e0 ops := by
  obtain ⟨h1, h2, h3, h4⟩ := applyTaskOps_fields ops (mkFaiTask description target soft e0)
  have hinv := h4 (by simp [mkFaiTask])
  rw [hinv, h1, h2, h3]
  simp only [mkFaiTask]
  ring

theorem toString_digit_length (d : Nat) (h : d < 10) : (toString d).length = 1 := by
  interval_cases d <;> rfl

theorem signalWriteLoop_messages (ps : List Frac) :
    signalWriteLoop ((ps.map (fun p => some (signalMessage p))) ++ [none])
      = ps.flatMap (fun p => [FileOp.write (signalMessage p ++ "\n"), FileOp.flush]) := by
  induction ps with
  | nil => rfl
  | cons p ps ih =>
    simp only [List.map_cons, List.cons_append, signalWriteLoop, List.append_eq, ih,
      List.flatMap_cons]
    simp

/-- C9: over a queue of progress updates followed by the shutdown
token, the Signal Sink writes exactly one newline-terminated line per
update — `PROGRESS ` followed by the value rendered with one decimal
digit — and flushes immediately after each write; when no path was
supplied, or the supplied path does not exist at startup, the file is
never opened and nothing is written. -/
theorem faiC9_theorem :
    (∀ (path : Option String) (pathExists : Bool) (ps : List Frac),
      signalProgressRun path pathExists ((ps.map (fun p => some (signalMessage p))) ++ [none])
        = if path.isSome && pathExists then
            ps.flatMap (fun p => [FileOp.write (signalMessage p ++ "\n"), FileOp.flush])
          else [])
    ∧ (∀ p : Frac, ∃ intPart fracDigit : String,
        signalMessage p = "PROGRESS " ++ intPart ++ "." ++ fracDigit
        ∧ fracDigit.length = 1) := by
  constructor
  · intro path pathExists ps
    cases path with
    | none => simp [signalProgressRun]
    | some s =>
      cases pathExists with
      | false => simp [signalProgressRun]
      | true => simp [signalProgressRun, signalWriteLoop_messages]
  · intro p
    refine ⟨(if roundHalfEven (p * ⟨10, 1⟩) < 0 then "-" else "")
        ++ toString ((roundHalfEven (p * ⟨10, 1⟩)).natAbs / 10),
      toString ((roundHalfEven (p * ⟨10, 1⟩)).natAbs % 10), ?_, ?_⟩
    · simp [signalMessage, formatFixed1, String.append_assoc]
    · exact toString_digit_length _ (Nat.mod_lt _ (by norm_num))

/-- C10: the constructor of `FaiTask` replaces a missing or falsy
(zero) softupdate target by the install target, so for such tasks
`get_target_progress` in softupdate mode returns the install target: a
softupdate target of exactly zero is never stored as such. -/
theorem faiC10_theorem (description : String) (target : Frac) (soft : Option Frac)
    (e0 : Int) (h : soft = none ∨ soft = some 0) :
    (mkFaiTask description target soft e0).progress_softupdate = target
    ∧ (mkFaiTask description target soft e0).get_target_progress (some ("softupdate"))
        = target := by
  have hsoft : (mkFaiTask description target soft e0).progress_softupdate = target := by
    rcases h with h | h <;> subst h <;> rfl
  exact ⟨hsoft, hsoft⟩

/-- C10 witness: a task declared with install target 50 and softupdate
target 0 reports 50 in softupdate mode. -/
theorem faiC10_witness :
    (mkFaiTask ("t") 50 (some 0) 0).progress_softupdate = 50
    ∧ (mkFaiTask ("t") 50 (some 0) 0).get_target_progress (some ("softupdate")) = 50 :=
  faiC10_theorem ("t") 50 (some 0) 0 (Or.inr rfl)
